import Mathlib

/-!
Verification of the filtered, paginated list-synchronization controllers of the
stock-data ETL pipeline web frontend.

The embedded code comprises:
* the ingestion-runs list store (`src/js/stores/ingestion_runs/listStore.js`,
  `loadRuns` / `extractCursor` / `applyFilters` / `clearFilters` / `nextPage` /
  `previousPage`), which issues fetches with no request-cancellation guard;
* the stocks list store variant that tracks an `AbortController` per request
  (`loadStocks` / `handleDebouncedFilter` and friends), whose debounce and
  supersession behaviour is shared verbatim with the runs store variant that
  has the same wiring;
* the query-parameter builder of the API base client (`api/base.js`,
  `buildQueryParams`) and the date helpers used by the date-range filters.

JavaScript objects holding filter values and timers are embedded as ordered
association lists (insertion order is `Object.keys` order); `null`/absent
values are `Option`; the asynchronous `loadX` methods are split into an
`issue` phase (the synchronous prefix up to the `await` of the API call) and a
`resolve` phase (the continuation run when the API promise settles), with the
API outcome supplied as an explicit parameter.  Every issued API call is
recorded in an `issuedLoads` log field so that "a fetch was triggered" is a
statement about the state.
-/

namespace ListSync

/-- First-match lookup in a JavaScript-object-like association list
(`obj[key]`, absent keys give `undefined`, embedded as `none`). -/
def alookup {α : Type} (key : String) : List (String × α) → Option α
  | [] => none
  | kv :: rest => if kv.1 = key then some kv.2 else alookup key rest

/-- JavaScript-object property assignment `obj[key] = val`: overwrite the
existing entry in place, or append a new entry (insertion order preserved). -/
def aset {α : Type} (key : String) (val : α) (l : List (String × α)) : List (String × α) :=
  if l.any (fun kv => kv.1 == key) then
    l.map (fun kv => if kv.1 = key then (key, val) else kv)
  else
    l ++ [(key, val)]

/-- Removal of a key; used to embed `obj[key] = null` for the timer maps,
whose entries are observed only through truthiness tests. -/
def aerase {α : Type} (key : String) (l : List (String × α)) : List (String × α) :=
  l.filter (fun kv => kv.1 != key)

/-- Whitespace for the purposes of `String.prototype.trim`. -/
def jsWhitespace (c : Char) : Bool :=
  c = ' ' || c = '\t' || c = '\n' || c = '\r'

/-- `value.trim()`: strip leading and trailing whitespace (embedded over the
character list so that it evaluates by kernel reduction). -/
def jsTrim (s : String) : String :=
  String.mk (((s.data.dropWhile jsWhitespace).reverse.dropWhile jsWhitespace).reverse)

/-- `value.toLowerCase()` restricted to ASCII, which is all the boolean
filter strings use. -/
def jsToLower (s : String) : String :=
  String.mk (s.data.map Char.toLower)

/-- Split a character list on a separator character, keeping empty segments
(`"a&&b".split('&')` gives three segments). -/
def splitChars (sep : Char) : List Char → List (List Char)
  | [] => [[]]
  | c :: rest =>
    let r := splitChars sep rest
    if c = sep then [] :: r
    else
      match r with
      | [] => [[c]]
      | h :: t => (c :: h) :: t

/-- JavaScript truthiness of a nullable string (`null` and `""` are falsy). -/
def truthyStr (o : Option String) : Bool :=
  match o with
  | some s => s != ""
  | none => false

/-- A transport-level filter value: the stores pass strings for text and date
filters and genuine booleans for the boolean filters. -/
inductive TransportValue : Type where
  | str : String → TransportValue
  | bool : Bool → TransportValue
deriving DecidableEq

/-- `String(value)` as applied by `URLSearchParams.append`. -/
def TransportValue.render : TransportValue → String
  | .str s => s
  | .bool b => if b then "true" else "false"

/-! ### URL-cursor extraction (`extractCursor`)

`extractCursor` calls `new URL(url)` inside `try`/`catch` and reads
`searchParams.get('cursor')`.  The host URL parser is embedded as
`jsParseURL`: it succeeds exactly when the input has a syntactically valid
nonempty scheme before a `:` (an abstraction of the WHATWG parser, which
throws on inputs without an absolute scheme), and it exposes the query
parameters (first `?` after stripping the `#` fragment, `&`-separated,
key split at the first `=`; percent-decoding of the opaque cursor token is
not modelled). -/

/-- Split a character list at the first occurrence of `sep`; `none` when the
separator does not occur. -/
def splitFirstChar (sep : Char) : List Char → Option (List Char × List Char)
  | [] => none
  | c :: rest =>
    if c = sep then some ([], rest)
    else (splitFirstChar sep rest).map (fun p => (c :: p.1, p.2))

/-- One `key=value` query segment (value empty when there is no `=`). -/
def parseQuerySegment (seg : String) : String × String :=
  match splitFirstChar '=' seg.toList with
  | some (k, v) => (String.mk k, String.mk v)
  | none => (seg, "")

/-- The `URLSearchParams` view of a raw query string: nonempty `&`-separated
segments, each split at its first `=`. -/
def parseQuery (q : String) : List (String × String) :=
  ((splitChars '&' q.toList).map String.mk).filterMap fun seg =>
    if seg = "" then none else some (parseQuerySegment seg)

/-- A parsed URL, reduced to the parts `extractCursor` observes. -/
structure ParsedURL : Type where
  scheme : String
  queryParams : List (String × String)
deriving DecidableEq

/-- Characters allowed in a URL scheme after its leading letter. -/
def schemeTailChar (c : Char) : Bool :=
  c.isAlphanum || c = '+' || c = '-' || c = '.'

/-- Model of `new URL(url)`: `none` embeds the `TypeError` thrown on inputs
with no valid scheme. -/
def jsParseURL (url : String) : Option ParsedURL :=
  match splitFirstChar ':' url.toList with
  | none => none
  | some (schemeChars, rest) =>
    match schemeChars with
    | [] => none
    | c0 :: tail =>
      if c0.isAlpha && tail.all schemeTailChar then
        let beforeHash := ((splitFirstChar '#' rest).map (fun p => p.1)).getD rest
        let query :=
          match splitFirstChar '?' beforeHash with
          | some (_, q) => String.mk q
          | none => ""
        some ⟨String.mk (c0 :: tail), parseQuery query⟩
      else none

/-- `extractCursor(url)` of the list stores: `new URL(url)` guarded by
`try`/`catch`, then `searchParams.get('cursor')`; any parse failure is caught
and yields `null`. -/
def extractCursor (url : String) : Option String :=
  match jsParseURL url with
  | some u => alookup "cursor" u.queryParams
  | none => none

/-- `response.next ? this.extractCursor(response.next) : null` (ditto for
`previous`): JavaScript truthiness on the continuation reference, then cursor
extraction. -/
def cursorFromRef (ref : Option String) : Option String :=
  match ref with
  | some u => if u = "" then none else extractCursor u
  | none => none

/-! ### Date normalization for the date-range filters -/

/-- Decimal value of a digit character. -/
def digitVal (c : Char) : Int :=
  Int.ofNat (c.toNat - 48)

/-- Parse of a `YYYY-MM-DD` string (the regex `^\d{4}-\d{2}-\d{2}$` together
with reading the fields). -/
def parseDateOnly (s : String) : Option (Int × Int × Int) :=
  match s.toList with
  | [y1, y2, y3, y4, h1, m1, m2, h2, d1, d2] =>
    if y1.isDigit && y2.isDigit && y3.isDigit && y4.isDigit && h1 = '-' &&
       m1.isDigit && m2.isDigit && h2 = '-' && d1.isDigit && d2.isDigit then
      some (1000 * digitVal y1 + 100 * digitVal y2 + 10 * digitVal y3 + digitVal y4,
            10 * digitVal m1 + digitVal m2,
            10 * digitVal d1 + digitVal d2)
    else none
  | _ => none

/-- The test `/^\d{4}-\d{2}-\d{2}$/.test(str)`. -/
def isDateOnly (s : String) : Bool :=
  (parseDateOnly s).isSome

/-- Days since 1970-01-01 of a proleptic-Gregorian civil date (standard
days-from-civil computation with floor division). -/
def daysFromCivil (y m d : Int) : Int :=
  let yAdj := if m ≤ 2 then y - 1 else y
  let era := Int.fdiv yAdj 400
  let yoe := yAdj - era * 400
  let mp := m + (if 2 < m then -3 else 9)
  let doy := Int.fdiv (153 * mp + 2) 5 + d - 1
  let doe := yoe * 365 + Int.fdiv yoe 4 - Int.fdiv yoe 100 + doy
  era * 146097 + doe - 719468

/-- Civil date of a day count since 1970-01-01 (inverse of `daysFromCivil`). -/
def civilFromDays (z : Int) : Int × Int × Int :=
  let zAdj := z + 719468
  let era := Int.fdiv zAdj 146097
  let doe := zAdj - era * 146097
  let yoe := Int.fdiv (doe - Int.fdiv doe 1460 + Int.fdiv doe 36524 - Int.fdiv doe 146096) 365
  let y := yoe + era * 400
  let doy := doe - (365 * yoe + Int.fdiv yoe 4 - Int.fdiv yoe 100)
  let mp := Int.fdiv (5 * doy + 2) 153
  let d := doy - Int.fdiv (153 * mp + 2) 5 + 1
  let m := mp + (if mp < 10 then 3 else -9)
  (if m ≤ 2 then y + 1 else y, m, d)

/-- Left-pad to two decimal digits. -/
def pad2 (n : Int) : String :=
  let k := n.toNat
  if k < 10 then "0" ++ toString k else toString k

/-- Left-pad to four decimal digits. -/
def pad4 (n : Int) : String :=
  let k := n.toNat
  if k < 10 then "000" ++ toString k
  else if k < 100 then "00" ++ toString k
  else if k < 1000 then "0" ++ toString k
  else toString k

/-- ISO-8601 UTC rendering (`YYYY-MM-DDTHH:MM:00Z`) of an instant given in
minutes since the epoch. -/
def isoOfEpochMinutes (t : Int) : String :=
  let days := Int.fdiv t 1440
  let mins := t - 1440 * days
  let ymd := civilFromDays days
  let hh := Int.fdiv mins 60
  let mi := mins - 60 * hh
  pad4 ymd.1 ++ "-" ++ pad2 ymd.2.1 ++ "-" ++ pad2 ymd.2.2 ++ "T" ++
    pad2 hh ++ ":" ++ pad2 mi ++ ":00Z"

/-- Modelled from the spec: `window.dateUtils.dateToUTCISO`, called by the
runs store variant and by `loadBulkQueueRuns`, is not present under `src/`
(only its call sites are).  Per the spec, a `YYYY-MM-DD` value is interpreted
as a local calendar day and converted to the absolute instant of local
midnight expressed as a UTC timestamp string, and malformed dates yield no
value.  `tzOffsetMinutes` is the caller's `Date.prototype.getTimezoneOffset`
value (UTC minus local time, in minutes), so the UTC instant of local
midnight is the day boundary plus that offset. -/
def dateToUTCISO (v : String) (tzOffsetMinutes : Int) : Option String :=
  match parseDateOnly v with
  | some ymd => some (isoOfEpochMinutes (1440 * daysFromCivil ymd.1 ymd.2.1 ymd.2.2 + tzOffsetMinutes))
  | none => none

/-! ### The ingestion-runs list store (`stores/ingestion_runs/listStore.js`)

This variant has no request-cancellation wiring: `loadRuns` sets
`loading`/`error`, awaits `runsAPI.listRuns(pageSize, cursor, activeFilters)`
and commits whatever outcome arrives.  The runs themselves are opaque records;
they are embedded as strings. -/

/-- The API request issued by `runsAPI.listRuns(pageSize, cursor, filters)`. -/
structure RunsReq : Type where
  pageSize : Nat
  cursor : Option String
  activeFilters : List (String × TransportValue)
deriving DecidableEq

/-- Observable state of the runs list store, plus the log of issued API
calls (model bookkeeping for "a fetch was triggered"). -/
structure RunsStore : Type where
  runs : List String
  loading : Bool
  error : Option String
  nextCursor : Option String
  previousCursor : Option String
  pageSize : Nat
  filters : List (String × String)
  issuedLoads : List RunsReq
deriving DecidableEq

/-- The boolean-kind filter keys special-cased by `loadRuns`. -/
def runsBooleanKeys : List String := ["is_terminal", "is_in_progress"]

/-- The date-kind filter keys special-cased by `loadRuns`. -/
def runsDateKeys : List String := ["created_after", "created_before"]

/-- Date-filter normalization inside `loadRuns`: trim, validate against
`^\d{4}-\d{2}-\d{2}$`, and append `T00:00:00Z` (start of the named day, as a
fixed UTC boundary); blank or malformed values are dropped. -/
def normalizeDateRuns (v : String) : Option String :=
  if jsTrim v ≠ "" then
    (if isDateOnly (jsTrim v) then some (jsTrim v ++ "T00:00:00Z") else none)
  else none

/-- The `activeFilters` object built by `loadRuns`: boolean keys are included
whenever nonempty and coerced via `value.toLowerCase() === 'true'`; date keys
go through `normalizeDateRuns`; all other keys are trimmed strings included
only when nonempty after trimming. -/
def activeFiltersRuns (filters : List (String × String)) : List (String × TransportValue) :=
  filters.filterMap fun kv =>
    if kv.1 ∈ runsBooleanKeys then
      if kv.2 ≠ "" then some (kv.1, TransportValue.bool (jsToLower kv.2 = "true")) else none
    else if kv.1 ∈ runsDateKeys then
      (normalizeDateRuns kv.2).map (fun iso => (kv.1, TransportValue.str iso))
    else
      if jsTrim kv.2 ≠ "" then some (kv.1, TransportValue.str (jsTrim kv.2)) else none

/-- Outcome of an awaited API call: the parsed success payload
(`results`/`next`/`previous`), or a rejection carrying the thrown error's
`name` and `message`. -/
inductive FetchOutcome : Type where
  | success (results : Option (List String)) (next previous : Option String)
  | failure (name message : String)
deriving DecidableEq

/-- Synchronous prefix of `loadRuns(cursor)`: set `loading`, clear `error`,
build `activeFilters` and issue the API call. -/
def loadRunsIssue (s : RunsStore) (cursor : Option String) : RunsStore × RunsReq :=
  let s1 : RunsStore := { s with loading := true, error := none }
  let req : RunsReq := ⟨s1.pageSize, cursor, activeFiltersRuns s1.filters⟩
  ({ s1 with issuedLoads := s1.issuedLoads ++ [req] }, req)

/-- Continuation of `loadRuns` once the API promise settles: commit
`results`/cursors on success; on failure set `error` (with the fallback
message), clear the list and the cursors; `finally` clears `loading`. -/
def loadRunsResolve (s : RunsStore) (outcome : FetchOutcome) : RunsStore :=
  match outcome with
  | .success results next previous =>
    { s with runs := results.getD [],
             nextCursor := cursorFromRef next,
             previousCursor := cursorFromRef previous,
             loading := false }
  | .failure _ msg =>
    { s with error := some (if msg = "" then "Failed to load runs" else msg),
             runs := [],
             nextCursor := none,
             previousCursor := none,
             loading := false }

/-- `applyFilters()`: reset both cursors, then `loadRuns(null)`. -/
def applyFiltersRuns (s : RunsStore) : RunsStore × RunsReq :=
  loadRunsIssue { s with nextCursor := none, previousCursor := none } none

/-- The all-empty filter object assigned by `clearFilters()` (source order,
`run_id` last). -/
def clearedRunsFilters : List (String × String) :=
  [("ticker", ""), ("ticker__icontains", ""), ("state", ""),
   ("requested_by", ""), ("requested_by__icontains", ""),
   ("created_after", ""), ("created_before", ""),
   ("is_terminal", ""), ("is_in_progress", ""),
   ("bulk_queue_run", ""), ("run_id", "")]

/-- `clearFilters()`: reset every filter to the empty string, then
`applyFilters()`. -/
def clearFiltersRuns (s : RunsStore) : RunsStore × RunsReq :=
  applyFiltersRuns { s with filters := clearedRunsFilters }

/-- `nextPage()`: fetch with the stored forward cursor when it is truthy,
otherwise do nothing (the resolution of the conditional fetch is folded in,
parameterized by the API outcome). -/
def nextPageRuns (s : RunsStore) (outcome : FetchOutcome) : RunsStore :=
  if truthyStr s.nextCursor then
    loadRunsResolve (loadRunsIssue s s.nextCursor).1 outcome
  else s

/-- `previousPage()`: the mirror of `nextPageRuns` on the backward cursor. -/
def previousPageRuns (s : RunsStore) (outcome : FetchOutcome) : RunsStore :=
  if truthyStr s.previousCursor then
    loadRunsResolve (loadRunsIssue s s.previousCursor).1 outcome
  else s

/-- The declared initial state of the runs list store. -/
def runsInit : RunsStore :=
  { runs := [], loading := false, error := none,
    nextCursor := none, previousCursor := none, pageSize := 50,
    filters := [("run_id", ""), ("ticker", ""), ("ticker__icontains", ""),
                ("state", ""), ("requested_by", ""), ("requested_by__icontains", ""),
                ("created_after", ""), ("created_before", ""),
                ("is_terminal", ""), ("is_in_progress", ""), ("bulk_queue_run", "")],
    issuedLoads := [] }

/-! ### The stocks list store (AbortController variant)

`loadStocks` aborts the previous request's controller, installs a fresh one,
and captures that controller's `signal` in the closure.  After the `await` it
suppresses the commit when its own captured signal was aborted; the `catch`
clause, however, tests `this._currentRequestController.signal` — the signal of
the *newest* request — and the `finally` clause clears `loading` under that
same test.  Controllers are embedded as identities (`Nat`) minted by a
counter, with the set of identities whose `abort()` was called; cancelled
debounce timers are likewise logged by identity. -/

/-- The API request issued by `stocksAPI.listTickers(pageSize, cursor, filters)`. -/
structure StocksReq : Type where
  pageSize : Nat
  cursor : Option String
  activeFilters : List (String × String)
deriving DecidableEq

/-- An in-flight `loadStocks` call: the controller identity whose signal the
closure captured, and the request it sent. -/
structure PendingLoad : Type where
  ctrl : Nat
  req : StocksReq
deriving DecidableEq

/-- State of the stocks list store: observable fields, the filter and timer
objects, the AbortController bookkeeping, and the issued-call log. -/
structure StocksStore : Type where
  stocks : List String
  loading : Bool
  error : Option String
  nextCursor : Option String
  previousCursor : Option String
  pageSize : Nat
  filters : List (String × String)
  debounceTimers : List (String × Nat)
  debounceDelay : Nat
  currentRequestController : Option Nat
  abortedControllers : List Nat
  nextControllerId : Nat
  nextTimerId : Nat
  cancelledTimers : List Nat
  issuedLoads : List StocksReq
deriving DecidableEq

/-- The `activeFilters` object built by `loadStocks`: every filter is a
string; include the trimmed value exactly when it is nonempty after
trimming. -/
def activeFiltersStocks (filters : List (String × String)) : List (String × String) :=
  filters.filterMap fun kv =>
    if jsTrim kv.2 ≠ "" then some (kv.1, jsTrim kv.2) else none

/-- Synchronous prefix of `loadStocks(cursor)`: abort the previous request's
controller, mint a fresh one, set `loading`, clear `error`, build
`activeFilters` and issue the API call. -/
def loadStocksIssue (s : StocksStore) (cursor : Option String) : StocksStore × PendingLoad :=
  let aborted :=
    match s.currentRequestController with
    | some c => c :: s.abortedControllers
    | none => s.abortedControllers
  let ctrl := s.nextControllerId
  let s1 : StocksStore :=
    { s with abortedControllers := aborted,
             currentRequestController := some ctrl,
             nextControllerId := ctrl + 1,
             loading := true, error := none }
  let req : StocksReq := ⟨s1.pageSize, cursor, activeFiltersStocks s1.filters⟩
  ({ s1 with issuedLoads := s1.issuedLoads ++ [req] }, ⟨ctrl, req⟩)

/-- The `finally` clause of `loadStocks`: clear `loading` if there is a
current controller and its signal is not aborted (note: the test is on the
current controller, not the resolving request's own). -/
def finallyClearLoading (s : StocksStore) : StocksStore :=
  match s.currentRequestController with
  | some c => if c ∈ s.abortedControllers then s else { s with loading := false }
  | none => s

/-- Continuation of `loadStocks` once the API promise settles, for the
request whose captured signal is `ctrl`.  On success, a set `signal.aborted`
suppresses the commit (clearing `loading`); otherwise `results` and the
extracted cursors are committed.  On failure, the `catch` ignores the error
only when it is named `AbortError` or when the *current* controller's signal
is aborted; otherwise it commits the error state. -/
def loadStocksResolve (s : StocksStore) (ctrl : Nat) (outcome : FetchOutcome) : StocksStore :=
  match outcome with
  | .success results next previous =>
    if ctrl ∈ s.abortedControllers then
      finallyClearLoading { s with loading := false }
    else
      finallyClearLoading
        { s with stocks := results.getD [],
                 nextCursor := cursorFromRef next,
                 previousCursor := cursorFromRef previous }
  | .failure name msg =>
    let currentAborted : Bool :=
      match s.currentRequestController with
      | some c => decide (c ∈ s.abortedControllers)
      | none => false
    if name = "AbortError" || currentAborted then
      finallyClearLoading { s with loading := false }
    else
      finallyClearLoading
        { s with error := some (if msg = "" then "Failed to load stocks" else msg),
                 stocks := [],
                 nextCursor := none,
                 previousCursor := none }

/-- `applyFilters()` of the stocks store: reset both cursors, then
`loadStocks(null)`. -/
def applyFiltersStocks (s : StocksStore) : StocksStore × PendingLoad :=
  loadStocksIssue { s with nextCursor := none, previousCursor := none } none

/-- The all-empty filter object assigned by the stocks `clearFilters()`. -/
def clearedStocksFilters : List (String × String) :=
  [("ticker__icontains", ""), ("sector__name__icontains", ""),
   ("exchange__name", ""), ("country", "")]

/-- `clearFilters()` of the stocks store: clear every pending debounce timer,
reset the filters, then `applyFilters()`. -/
def clearFiltersStocks (s : StocksStore) : StocksStore × PendingLoad :=
  let s1 : StocksStore :=
    { s with cancelledTimers := (s.debounceTimers.map Prod.snd).reverse ++ s.cancelledTimers,
             debounceTimers := [] }
  applyFiltersStocks { s1 with filters := clearedStocksFilters }

/-- `nextPage()` of the stocks store: issue a fetch with the forward cursor
when it is truthy, otherwise do nothing. -/
def nextPageStocks (s : StocksStore) : StocksStore × Option PendingLoad :=
  if truthyStr s.nextCursor then
    let ip := loadStocksIssue s s.nextCursor
    (ip.1, some ip.2)
  else (s, none)

/-- `previousPage()` of the stocks store. -/
def previousPageStocks (s : StocksStore) : StocksStore × Option PendingLoad :=
  if truthyStr s.previousCursor then
    let ip := loadStocksIssue s s.previousCursor
    (ip.1, some ip.2)
  else (s, none)

/-- `handleDebouncedFilter(filterKey, value)`: clear any pending timer for
the key, store the raw value in the filter object, then either reset the
cursors and call `loadStocks(null)` immediately (value blank after trimming)
or install a fresh debounce timer. -/
def handleDebouncedFilter (s : StocksStore) (filterKey value : String) : StocksStore :=
  let s1 :=
    match alookup filterKey s.debounceTimers with
    | some t => { s with cancelledTimers := t :: s.cancelledTimers,
                         debounceTimers := aerase filterKey s.debounceTimers }
    | none => s
  let s2 := { s1 with filters := aset filterKey value s1.filters }
  if jsTrim value = "" then
    (loadStocksIssue { s2 with nextCursor := none, previousCursor := none } none).1
  else
    { s2 with debounceTimers := aset filterKey s2.nextTimerId s2.debounceTimers,
              nextTimerId := s2.nextTimerId + 1 }

/-- Firing of the debounce timer installed for `filterKey` (the `setTimeout`
callback): reset the cursors, call `loadStocks(null)`, clear the timer slot;
a no-op when no timer is pending for the key. -/
def fireTimer (s : StocksStore) (filterKey : String) : StocksStore :=
  match alookup filterKey s.debounceTimers with
  | some _ =>
    let s1 := (loadStocksIssue { s with nextCursor := none, previousCursor := none } none).1
    { s1 with debounceTimers := aerase filterKey s1.debounceTimers }
  | none => s

/-- Elapse of the debounce window with no further input: every pending timer
fires. -/
def elapseDebounce (s : StocksStore) : StocksStore :=
  (s.debounceTimers.map Prod.fst).foldl fireTimer s

/-- A burst of `handleDebouncedFilter` calls on one key, all within the
debounce window (no timer fires in between). -/
def debounceBurst (s : StocksStore) (filterKey : String) (vals : List String) : StocksStore :=
  vals.foldl (fun acc v => handleDebouncedFilter acc filterKey v) s

/-- The declared initial state of the stocks list store (the `exchanges`
side-list, untouched by the embedded operations, is not carried). -/
def stocksInit : StocksStore :=
  { stocks := [], loading := false, error := none,
    nextCursor := none, previousCursor := none, pageSize := 50,
    filters := [("ticker__icontains", ""), ("sector__name__icontains", ""),
                ("exchange__name", ""), ("country", "")],
    debounceTimers := [], debounceDelay := 400,
    currentRequestController := none, abortedControllers := [],
    nextControllerId := 0, nextTimerId := 0, cancelledTimers := [],
    issuedLoads := [] }

/-! ### The API base client's query builder (`api/base.js`) -/

/-- One iteration of the string-filter loop of `buildQueryParams`: skip
`null`/`undefined`/`""` values, append the value otherwise. -/
def strParamOf (filters : List (String × TransportValue)) (k : String) :
    Option (String × String) :=
  match alookup k filters with
  | some v => if v = TransportValue.str "" then none else some (k, v.render)
  | none => none

/-- One iteration of the boolean-filter loop of `buildQueryParams`: skip
`null`/`undefined`, append `String(value)` otherwise. -/
def boolParamOf (filters : List (String × TransportValue)) (k : String) :
    Option (String × String) :=
  (alookup k filters).map (fun v => (k, v.render))

/-- `buildQueryParams(pageSize, cursor, filters, stringFilterKeys,
booleanFilterKeys)`: `page_size` and `cursor` when truthy, then each
whitelisted string key whose value is neither absent nor the empty string,
then each whitelisted boolean key whose value is present, stringified. -/
def buildQueryParams (pageSize : Nat) (cursor : Option String)
    (filters : List (String × TransportValue))
    (stringKeys booleanKeys : List String) : List (String × String) :=
  let base :=
    (if pageSize ≠ 0 then [("page_size", toString pageSize)] else []) ++
    (match cursor with
     | some c => if c ≠ "" then [("cursor", c)] else []
     | none => [])
  base ++ stringKeys.filterMap (strParamOf filters) ++
    booleanKeys.filterMap (boolParamOf filters)

/-- The string-filter whitelist of the tickers list endpoint. -/
def stocksTickerFilterKeys : List String :=
  ["ticker", "ticker__icontains", "sector", "sector__icontains",
   "exchange__name", "country"]

/-- The transport representation of a stocks-store filter state: the store's
`activeFilters` (trim-and-drop-blank) composed with the query builder (the
tickers client inlines the same loop as `buildQueryParams` with an empty
boolean whitelist). -/
def stocksTransportParams (pageSize : Nat) (cursor : Option String)
    (rawFilters : List (String × String)) : List (String × String) :=
  buildQueryParams pageSize cursor
    ((activeFiltersStocks rawFilters).map (fun kv => (kv.1, TransportValue.str kv.2)))
    stocksTickerFilterKeys []

/-! ### Helper lemmas -/

/-- A successful first-match lookup exhibits a member of the list. -/
lemma alookup_mem {α : Type} {key : String} {l : List (String × α)} {v : α}
    (h : alookup key l = some v) : (key, v) ∈ l := by
  induction l with
  | nil => simp [alookup] at h
  | cons kv rest ih =>
    obtain ⟨k0, v0⟩ := kv
    by_cases hk : k0 = key
    · rw [alookup] at h
      simp only [hk, if_pos rfl] at h
      obtain rfl : v0 = v := by injection h
      subst hk
      exact List.mem_cons_self _ _
    · rw [alookup] at h
      simp only [if_neg hk] at h
      exact List.mem_cons_of_mem _ (ih h)

/-! ### C3 — filter changes reset the cursors before fetching -/

/-- C3: every `applyFilters()` / `clearFilters()` call, on both embedded
stores, leaves both cursors absent in the state from which the fetch is
issued, and the issued request itself carries no cursor (`loadX(null)`), so
no fetch triggered by a filter change can use a cursor computed under the
previous filters. -/
theorem c3_filters_reset_cursors_before_fetch (sr : RunsStore) (ss : StocksStore) :
    ((applyFiltersRuns sr).2.cursor = none ∧
     (applyFiltersRuns sr).1.nextCursor = none ∧
     (applyFiltersRuns sr).1.previousCursor = none) ∧
    ((clearFiltersRuns sr).2.cursor = none ∧
     (clearFiltersRuns sr).1.nextCursor = none ∧
     (clearFiltersRuns sr).1.previousCursor = none) ∧
    ((applyFiltersStocks ss).2.req.cursor = none ∧
     (applyFiltersStocks ss).1.nextCursor = none ∧
     (applyFiltersStocks ss).1.previousCursor = none) ∧
    ((clearFiltersStocks ss).2.req.cursor = none ∧
     (clearFiltersStocks ss).1.nextCursor = none ∧
     (clearFiltersStocks ss).1.previousCursor = none) :=
  ⟨⟨rfl, rfl, rfl⟩, ⟨rfl, rfl, rfl⟩, ⟨rfl, rfl, rfl⟩, ⟨rfl, rfl, rfl⟩⟩

/-! ### C7 — genuine failure semantics and recovery by a successful fetch -/

/-- C7: a genuine fetch failure on the runs store sets `error` to a nonempty
message (the thrown message, or the fallback when it is empty), empties the
items list and clears both cursors; a subsequent successful fetch (e.g. a
refresh) leaves `error` cleared.  No operation other than a fetch touches
`error`, so the message persists until the next fetch is issued. -/
theorem c7_failure_state_and_refresh_clears (s : RunsStore) (cursor : Option String)
    (name msg : String) (results : Option (List String)) (next previous : Option String) :
    (∃ m, (loadRunsResolve (loadRunsIssue s cursor).1 (.failure name msg)).error = some m ∧ m ≠ "") ∧
    (loadRunsResolve (loadRunsIssue s cursor).1 (.failure name msg)).runs = [] ∧
    (loadRunsResolve (loadRunsIssue s cursor).1 (.failure name msg)).nextCursor = none ∧
    (loadRunsResolve (loadRunsIssue s cursor).1 (.failure name msg)).previousCursor = none ∧
    (loadRunsResolve
        (loadRunsIssue (loadRunsResolve (loadRunsIssue s cursor).1 (.failure name msg)) none).1
        (.success results next previous)).error = none := by
  refine ⟨⟨if msg = "" then "Failed to load runs" else msg, rfl, ?_⟩, rfl, rfl, rfl, rfl⟩
  split
  · decide
  · assumption

/-! ### C9 — cursor extraction is total and absorbs malformed references -/

/-- C9: `extractCursor` never throws: it is a total function into an optional
cursor.  When the continuation reference fails to parse as a URL the
exception is caught and the result is absent; when it parses, the result is
exactly the lookup of the `cursor` query parameter, and any returned token is
genuinely the embedded `cursor` parameter of the parsed reference. -/
theorem c9_extract_cursor_total (url : String) :
    (jsParseURL url = none → extractCursor url = none) ∧
    (∀ u, jsParseURL url = some u → extractCursor url = alookup "cursor" u.queryParams) ∧
    (∀ c, extractCursor url = some c →
      ∃ u, jsParseURL url = some u ∧ ("cursor", c) ∈ u.queryParams) := by
  unfold extractCursor
  cases hp : jsParseURL url with
  | none =>
    exact ⟨fun _ => rfl, fun u hu => by simp at hu, fun c hc => by simp at hc⟩
  | some u =>
    refine ⟨fun h => by simp at h, fun u1 hu => ?_, fun c hc => ?_⟩
    · injection hu with hu
      subst hu
      rfl
    · exact ⟨u, rfl, alookup_mem hc⟩

/-- Concrete instances of C9: a reference with no URL scheme yields absent
rather than an exception, and a well-formed reference yields its embedded
cursor token. -/
theorem c9_extract_cursor_total_witness :
    extractCursor "cursor=abc" = none ∧
    ∃ u, jsParseURL "https://api.example.test/tickers?page_size=50&cursor=abc" = some u ∧
      ("cursor", "abc") ∈ u.queryParams :=
  ⟨(c9_extract_cursor_total "cursor=abc").1 (by decide),
   (c9_extract_cursor_total "https://api.example.test/tickers?page_size=50&cursor=abc").2.2
     "abc" (by decide)⟩

/-! ### C10 — pagination with an absent cursor is a no-op -/

/-- C10: `nextPage()` with an absent forward cursor, and `previousPage()`
with an absent backward cursor, issue no fetch and leave the whole store
state — items, cursors, loading, error, filters and the issued-call log —
unchanged, on both embedded stores. -/
theorem c10_pagination_noop_frame (s : RunsStore) (t : StocksStore) (o : FetchOutcome) :
    (s.nextCursor = none → nextPageRuns s o = s) ∧
    (s.previousCursor = none → previousPageRuns s o = s) ∧
    (t.nextCursor = none → nextPageStocks t = (t, none)) ∧
    (t.previousCursor = none → previousPageStocks t = (t, none)) := by
  refine ⟨fun h => ?_, fun h => ?_, fun h => ?_, fun h => ?_⟩ <;>
    simp [nextPageRuns, previousPageRuns, nextPageStocks, previousPageStocks, truthyStr, h]

/-- Concrete instance of C10 at the initial states (both cursors absent). -/
theorem c10_pagination_noop_frame_witness :
    nextPageRuns runsInit (FetchOutcome.failure "Error" "boom") = runsInit ∧
    previousPageRuns runsInit (FetchOutcome.failure "Error" "boom") = runsInit ∧
    nextPageStocks stocksInit = (stocksInit, none) ∧
    previousPageStocks stocksInit = (stocksInit, none) :=
  ⟨(c10_pagination_noop_frame runsInit stocksInit (FetchOutcome.failure "Error" "boom")).1 rfl,
   (c10_pagination_noop_frame runsInit stocksInit (FetchOutcome.failure "Error" "boom")).2.1 rfl,
   (c10_pagination_noop_frame runsInit stocksInit (FetchOutcome.failure "Error" "boom")).2.2.1 rfl,
   (c10_pagination_noop_frame runsInit stocksInit (FetchOutcome.failure "Error" "boom")).2.2.2 rfl⟩

/-! ### C1 / C2 — request supersession -/

/-- Controller-identity bookkeeping well-formedness: every minted identity —
aborted or current — is below the fresh-identity counter.  It holds in the
initial state and is preserved by every operation. -/
def ctrlWF (s : StocksStore) : Bool :=
  s.abortedControllers.all (fun x => x < s.nextControllerId) &&
  (match s.currentRequestController with
   | some c => c < s.nextControllerId
   | none => true)

/-- A superseded request (own signal aborted) that resolves successfully
while a newer, non-aborted request is current commits nothing, but it does
clear the `loading` flag. -/
lemma resolve_superseded_success (s : StocksStore) (ctrl c : Nat)
    (res : Option (List String)) (nx pv : Option String)
    (hsup : ctrl ∈ s.abortedControllers)
    (hc : s.currentRequestController = some c)
    (hca : c ∉ s.abortedControllers) :
    loadStocksResolve s ctrl (.success res nx pv) = { s with loading := false } := by
  obtain ⟨st, ld, er, nc, pc, ps, fl, dt, dd, cc, ac, ni, nt, ct, il⟩ := s
  simp only at hc
  subst hc
  simp [loadStocksResolve, finallyClearLoading, hsup, hca]

/-- A request that is not superseded (own signal intact) resolving
successfully while the current controller is not aborted commits the results
and the extracted cursors and clears `loading`. -/
lemma resolve_current_success (s : StocksStore) (ctrl c : Nat)
    (res : Option (List String)) (nx pv : Option String)
    (hns : ctrl ∉ s.abortedControllers)
    (hc : s.currentRequestController = some c)
    (hca : c ∉ s.abortedControllers) :
    loadStocksResolve s ctrl (.success res nx pv) =
      { s with stocks := res.getD [],
               nextCursor := cursorFromRef nx,
               previousCursor := cursorFromRef pv,
               loading := false } := by
  obtain ⟨st, ld, er, nc, pc, ps, fl, dt, dd, cc, ac, ni, nt, ct, il⟩ := s
  simp only at hc
  subst hc
  simp [loadStocksResolve, finallyClearLoading, hns, hca]

/-- Any rejection that is not an `AbortError`, resolved while the current
controller is not aborted, commits the error state — regardless of whether
the rejecting request itself was superseded, because the `catch` clause
tests the *current* controller's signal instead of its own. -/
lemma resolve_failure_commits (s : StocksStore) (ctrl c : Nat) (name msg : String)
    (hname : name ≠ "AbortError")
    (hc : s.currentRequestController = some c)
    (hca : c ∉ s.abortedControllers) :
    loadStocksResolve s ctrl (.failure name msg) =
      { s with error := some (if msg = "" then "Failed to load stocks" else msg),
               stocks := [],
               nextCursor := none,
               previousCursor := none,
               loading := false } := by
  obtain ⟨st, ld, er, nc, pc, ps, fl, dt, dd, cc, ac, ni, nt, ct, il⟩ := s
  simp only at hc
  subst hc
  simp [loadStocksResolve, finallyClearLoading, hname, hca]

/-- C1 counterexample: on the ingestion-runs list store, which has no
supersession guard at all, issue fetch A then fetch B and let B resolve
first: B commits `["b"]`, and the late-arriving A then overwrites the
committed state with its own result `["a"]` — falsifying "only B's result is
ever committed … a late-arriving A never overwrites state committed by B"
for this controller instance. -/
theorem c1_stale_fetch_overwrites_counterexample :
    (loadRunsResolve (loadRunsIssue (loadRunsIssue runsInit none).1 none).1
        (.success (some ["b"]) none none)).runs = ["b"] ∧
    (loadRunsResolve
        (loadRunsResolve (loadRunsIssue (loadRunsIssue runsInit none).1 none).1
          (.success (some ["b"]) none none))
        (.success (some ["a"]) none none)).runs = ["a"] := by decide

/-- C1 amended: on the stocks list store (the `AbortController` variant), for
any well-formed state and any pair of fetches A issued before B that both
resolve *successfully*, only B's results and cursors end up committed,
whichever of the three possible resolution orders occurs (A before B is
issued; A between B's issue and B's resolution; A after B's resolution).  On
the ingestion-runs list store, which lacks the guard, the last fetch to
resolve wins, so a late A does overwrite B (see the counterexample); and a
superseded A that *fails* still commits an error state even on the guarded
store (see C2). -/
theorem c1_supersession_amended (s0 : StocksStore) (h : ctrlWF s0 = true)
    (curA curB : Option String) (resA resB : Option (List String))
    (nxA pvA nxB pvB : Option String) :
    let iA := loadStocksIssue s0 curA
    let iB := loadStocksIssue iA.1 curB
    let lateA := loadStocksResolve
      (loadStocksResolve iB.1 iB.2.ctrl (.success resB nxB pvB))
      iA.2.ctrl (.success resA nxA pvA)
    let earlyA := loadStocksResolve
      (loadStocksResolve iB.1 iA.2.ctrl (.success resA nxA pvA))
      iB.2.ctrl (.success resB nxB pvB)
    let seqA := loadStocksResolve iA.1 iA.2.ctrl (.success resA nxA pvA)
    let seqB := loadStocksResolve (loadStocksIssue seqA curB).1
      (loadStocksIssue seqA curB).2.ctrl (.success resB nxB pvB)
    (lateA.stocks = resB.getD [] ∧ lateA.nextCursor = cursorFromRef nxB ∧
      lateA.previousCursor = cursorFromRef pvB) ∧
    (earlyA.stocks = resB.getD [] ∧ earlyA.nextCursor = cursorFromRef nxB ∧
      earlyA.previousCursor = cursorFromRef pvB) ∧
    (seqB.stocks = resB.getD [] ∧ seqB.nextCursor = cursorFromRef nxB ∧
      seqB.previousCursor = cursorFromRef pvB) := by
  obtain ⟨st, ld, er, nc, pc, ps, fl, dt, dd, cc, ac, ni, nt, ct, il⟩ := s0
  cases cc with
  | none =>
    simp only [ctrlWF, Bool.and_eq_true, List.all_eq_true, decide_eq_true_eq] at h
    have hall := h.1
    have h1 : ¬ (ni + 1 = ni) := by omega
    have h2 : ni + 1 ∉ ac := fun hx => absurd (hall _ hx) (by omega)
    have h3 : ni ∉ ac := fun hx => absurd (hall _ hx) (by omega)
    simp [loadStocksIssue, loadStocksResolve, finallyClearLoading, h1, h2, h3]
  | some c =>
    simp only [ctrlWF, Bool.and_eq_true, List.all_eq_true, decide_eq_true_eq] at h
    have hall := h.1
    have hcur : c < ni := h.2
    have h1 : ¬ (ni + 1 = ni) := by omega
    have h2 : ni + 1 ∉ ac := fun hx => absurd (hall _ hx) (by omega)
    have h3 : ni ∉ ac := fun hx => absurd (hall _ hx) (by omega)
    have h4 : ¬ (ni + 1 = c) := by omega
    have h5 : ¬ (ni = c) := by omega
    simp [loadStocksIssue, loadStocksResolve, finallyClearLoading, h1, h2, h3, h4, h5]

/-- Concrete instance of C1 (amended): from the initial stocks store, two
overlapping fetches answered `["a"]` and `["b"]` end with `["b"]` committed
in every resolution order. -/
theorem c1_supersession_amended_witness :
    let iA := loadStocksIssue stocksInit none
    let iB := loadStocksIssue iA.1 none
    let lateA := loadStocksResolve
      (loadStocksResolve iB.1 iB.2.ctrl (.success (some ["b"]) none none))
      iA.2.ctrl (.success (some ["a"]) none none)
    let earlyA := loadStocksResolve
      (loadStocksResolve iB.1 iA.2.ctrl (.success (some ["a"]) none none))
      iB.2.ctrl (.success (some ["b"]) none none)
    let seqA := loadStocksResolve iA.1 iA.2.ctrl (.success (some ["a"]) none none)
    let seqB := loadStocksResolve (loadStocksIssue seqA none).1
      (loadStocksIssue seqA none).2.ctrl (.success (some ["b"]) none none)
    (lateA.stocks = (some ["b"] : Option (List String)).getD [] ∧
      lateA.nextCursor = cursorFromRef none ∧
      lateA.previousCursor = cursorFromRef none) ∧
    (earlyA.stocks = (some ["b"] : Option (List String)).getD [] ∧
      earlyA.nextCursor = cursorFromRef none ∧
      earlyA.previousCursor = cursorFromRef none) ∧
    (seqB.stocks = (some ["b"] : Option (List String)).getD [] ∧
      seqB.nextCursor = cursorFromRef none ∧
      seqB.previousCursor = cursorFromRef none) :=
  c1_supersession_amended stocksInit (by decide) none none
    (some ["a"]) (some ["b"]) none none none none

/-- C2 counterexample: commit `["a"]`, then issue fetch B and fetch C (so B
is superseded).  B's late *successful* resolution flips `loading` from `true`
to `false` while C is still in flight — a mutation of observable state — and
B's late *failed* resolution surfaces its error and empties the committed
items, so a superseded outcome is not discarded silently. -/
theorem c2_superseded_mutation_counterexample :
    let i1 := loadStocksIssue stocksInit none
    let sA := loadStocksResolve i1.1 i1.2.ctrl (.success (some ["a"]) none none)
    let i2 := loadStocksIssue sA none
    let i3 := loadStocksIssue i2.1 none
    i3.1.stocks = ["a"] ∧ i3.1.loading = true ∧ i3.1.error = none ∧
    (loadStocksResolve i3.1 i2.2.ctrl (.success (some ["b"]) none none)).loading = false ∧
    (loadStocksResolve i3.1 i2.2.ctrl (.failure "Error" "boom")).error = some "boom" ∧
    (loadStocksResolve i3.1 i2.2.ctrl (.failure "Error" "boom")).stocks = [] := by decide

/-- C2 amended: when a fetch resolves after a newer fetch has been issued on
the stocks store, a *successful* outcome is discarded except that the
`loading` flag is cleared (items, cursors and error are untouched); a
*failed* outcome (any non-`AbortError` rejection) is not discarded at all —
it commits its error message, empties the items and clears both cursors,
because the `catch` and `finally` clauses test the newest controller's
signal rather than the resolving request's own. -/
theorem c2_superseded_outcome_amended (s : StocksStore) (ctrl c : Nat)
    (res : Option (List String)) (nx pv : Option String) (name msg : String)
    (hsup : ctrl ∈ s.abortedControllers)
    (hc : s.currentRequestController = some c)
    (hca : c ∉ s.abortedControllers)
    (hname : name ≠ "AbortError") :
    loadStocksResolve s ctrl (.success res nx pv) = { s with loading := false } ∧
    loadStocksResolve s ctrl (.failure name msg) =
      { s with error := some (if msg = "" then "Failed to load stocks" else msg),
               stocks := [],
               nextCursor := none,
               previousCursor := none,
               loading := false } :=
  ⟨resolve_superseded_success s ctrl c res nx pv hsup hc hca,
   resolve_failure_commits s ctrl c name msg hname hc hca⟩

/-- Concrete instance of C2 (amended), at the state with two overlapping
fetches where the first (controller 0) has been superseded by the second
(controller 1). -/
theorem c2_superseded_outcome_amended_witness :
    loadStocksResolve (loadStocksIssue (loadStocksIssue stocksInit none).1 none).1 0
        (.success (some ["x"]) none none)
      = { (loadStocksIssue (loadStocksIssue stocksInit none).1 none).1 with loading := false } ∧
    loadStocksResolve (loadStocksIssue (loadStocksIssue stocksInit none).1 none).1 0
        (.failure "Error" "boom")
      = { (loadStocksIssue (loadStocksIssue stocksInit none).1 none).1 with
          error := some (if "boom" = "" then "Failed to load stocks" else "boom"),
          stocks := [],
          nextCursor := none,
          previousCursor := none,
          loading := false } :=
  c2_superseded_outcome_amended
    (loadStocksIssue (loadStocksIssue stocksInit none).1 none).1 0 1
    (some ["x"]) none none "Error" "boom"
    (by decide) rfl (by decide) (by decide)

/-! ### C4 / C5 — debounced filtering -/

/-- Erasing a key removes it from lookup. -/
lemma alookup_aerase_self {α : Type} (key : String) (l : List (String × α)) :
    alookup key (aerase key l) = none := by
  induction l with
  | nil => rfl
  | cons kv rest ih =>
    by_cases hk : kv.1 = key
    · simpa [aerase, List.filter_cons, hk] using ih
    · simpa [aerase, List.filter_cons, hk, alookup] using ih

/-- Looking up a key right after appending it, when it was absent before. -/
lemma alookup_append_single {α : Type} (key : String) (val : α) (l : List (String × α))
    (h : ∀ kv ∈ l, kv.1 ≠ key) : alookup key (l ++ [(key, val)]) = some val := by
  induction l with
  | nil => simp [alookup]
  | cons kv rest ih =>
    have hk : kv.1 ≠ key := h kv (List.mem_cons_self _ _)
    rw [List.cons_append, alookup, if_neg hk]
    exact ih fun kv2 hm => h kv2 (List.mem_cons_of_mem _ hm)

/-- Looking up a key after overwriting it in place. -/
lemma alookup_overwrite {α : Type} (key : String) (val : α) (l : List (String × α))
    (h : l.any (fun kv => kv.1 == key) = true) :
    alookup key (l.map fun kv => if kv.1 = key then (key, val) else kv) = some val := by
  induction l with
  | nil => simp at h
  | cons kv rest ih =>
    by_cases hk : kv.1 = key
    · simp [alookup, hk]
    · have h2 : rest.any (fun kv => kv.1 == key) = true := by
        rcases List.any_eq_true.mp h with ⟨x, hx, hbx⟩
        rcases List.mem_cons.mp hx with rfl | hx2
        · exact absurd (by simpa using hbx) hk
        · exact List.any_eq_true.mpr ⟨x, hx2, hbx⟩
      rw [List.map_cons, if_neg hk, alookup, if_neg hk]
      exact ih h2

/-- `obj[key] = val` makes `obj[key]` give `val`. -/
lemma alookup_aset_self {α : Type} (key : String) (val : α) (l : List (String × α)) :
    alookup key (aset key val l) = some val := by
  unfold aset
  by_cases h : l.any (fun kv => kv.1 == key) = true
  · rw [if_pos h]
    exact alookup_overwrite key val l h
  · rw [if_neg h]
    refine alookup_append_single key val l fun kv hm hk => ?_
    exact h (List.any_eq_true.mpr ⟨kv, hm, by simpa using hk⟩)

/-- Unfolding of the stocks `activeFilters` construction on a cons. -/
lemma activeFiltersStocks_cons (kv : String × String) (rest : List (String × String)) :
    activeFiltersStocks (kv :: rest) =
      if jsTrim kv.2 ≠ "" then (kv.1, jsTrim kv.2) :: activeFiltersStocks rest
      else activeFiltersStocks rest := by
  by_cases h : jsTrim kv.2 = "" <;> simp [activeFiltersStocks, h]

/-- A filter whose raw value trims to a nonempty string appears in the
`activeFilters` object built by `loadStocks`, carrying the trimmed value. -/
lemma alookup_activeFiltersStocks {l : List (String × String)} {key v : String}
    (hv : alookup key l = some v) (ht : jsTrim v ≠ "") :
    alookup key (activeFiltersStocks l) = some (jsTrim v) := by
  induction l with
  | nil => simp [alookup] at hv
  | cons kv rest ih =>
    rw [activeFiltersStocks_cons]
    by_cases hk : kv.1 = key
    · rw [alookup, if_pos hk] at hv
      obtain rfl : kv.2 = v := by injection hv
      rw [if_pos ht, alookup, if_pos hk]
    · rw [alookup, if_neg hk] at hv
      have hrest := ih hv
      by_cases h2 : jsTrim kv.2 = ""
      · rw [if_neg (by simpa using h2)]
        exact hrest
      · rw [if_pos h2, alookup, if_neg hk]
        exact hrest

/-- One `handleDebouncedFilter` call with a non-blank value, in a state whose
only pending timer is one for the same key: the pending timer is cancelled
before the fresh one is installed, the raw value is stored, and no fetch is
issued. -/
lemma handleDebounced_step (s : StocksStore) (k v : String) (t : Nat)
    (ht : s.debounceTimers = [(k, t)]) (hv : jsTrim v ≠ "") :
    handleDebouncedFilter s k v =
      { s with cancelledTimers := t :: s.cancelledTimers,
               filters := aset k v s.filters,
               debounceTimers := [(k, s.nextTimerId)],
               nextTimerId := s.nextTimerId + 1 } := by
  unfold handleDebouncedFilter
  rw [ht]
  have halk : alookup k [(k, t)] = some t := by simp [alookup]
  rw [halk]
  have her : aerase k [(k, t)] = [] := by simp [aerase]
  have hset : aset k s.nextTimerId ([] : List (String × Nat)) = [(k, s.nextTimerId)] := by
    simp [aset]
  simp [hv, her, hset]

/-- One `handleDebouncedFilter` call with a non-blank value, in a state with
no pending timers: a fresh timer is installed and nothing is cancelled or
fetched. -/
lemma handleDebounced_first (s : StocksStore) (k v : String)
    (ht : s.debounceTimers = []) (hv : jsTrim v ≠ "") :
    handleDebouncedFilter s k v =
      { s with filters := aset k v s.filters,
               debounceTimers := [(k, s.nextTimerId)],
               nextTimerId := s.nextTimerId + 1 } := by
  unfold handleDebouncedFilter
  rw [ht]
  have halk : alookup k ([] : List (String × Nat)) = none := rfl
  rw [halk]
  have hset : aset k s.nextTimerId ([] : List (String × Nat)) = [(k, s.nextTimerId)] := by
    simp [aset]
  simp [hv, ht, hset]

/-- A burst of non-blank `handleDebouncedFilter` calls on one key, starting
with a pending timer for that key: every call cancels the previous timer and
installs a fresh one, the filter object ends holding the last raw value, and
no fetch is issued during the burst. -/
lemma debounceBurst_pending (k : String) :
    ∀ (vs : List String) (s : StocksStore) (t : Nat),
      s.debounceTimers = [(k, t)] →
      (∀ v ∈ vs, jsTrim v ≠ "") →
      vs ≠ [] →
      (debounceBurst s k vs).debounceTimers = [(k, s.nextTimerId + vs.length - 1)] ∧
      (debounceBurst s k vs).issuedLoads = s.issuedLoads ∧
      (debounceBurst s k vs).cancelledTimers.length = s.cancelledTimers.length + vs.length ∧
      alookup k (debounceBurst s k vs).filters = vs.getLast? ∧
      (debounceBurst s k vs).nextTimerId = s.nextTimerId + vs.length ∧
      (debounceBurst s k vs).pageSize = s.pageSize := by
  intro vs
  induction vs with
  | nil => intro s t _ _ hne; exact absurd rfl hne
  | cons v rest ih =>
    intro s t ht hvals _
    have hv : jsTrim v ≠ "" := hvals v (List.mem_cons_self _ _)
    have hstep := handleDebounced_step s k v t ht hv
    have hfold : debounceBurst s k (v :: rest) = debounceBurst (handleDebouncedFilter s k v) k rest := rfl
    cases rest with
    | nil =>
      rw [hfold, hstep]
      refine ⟨rfl, rfl, rfl, ?_, rfl, rfl⟩
      simpa [debounceBurst] using alookup_aset_self k v s.filters
    | cons w rest2 =>
      have hrest : ∀ x ∈ w :: rest2, jsTrim x ≠ "" :=
        fun x hx => hvals x (List.mem_cons_of_mem _ hx)
      have hih := ih (handleDebouncedFilter s k v) s.nextTimerId
        (by rw [hstep]) hrest (by simp)
      rw [hfold]
      obtain ⟨a1, a2, a3, a4, a5, a6⟩ := hih
      refine ⟨?_, ?_, ?_, ?_, ?_, ?_⟩
      · rw [a1, hstep]
        simp only [List.length_cons, List.cons.injEq, Prod.mk.injEq, true_and, and_true,
          eq_self_iff_true]
        omega
      · rw [a2, hstep]
      · rw [a3, hstep]
        simp only [List.length_cons]
        omega
      · rw [a4]
        exact (List.getLast?_cons_cons).symm
      · rw [a5, hstep]
        simp only [List.length_cons]
        omega
      · rw [a6, hstep]

/-- C5: on any state, a debounced filter update whose value is empty (or
whitespace-only, trimming to empty) issues the fetch immediately — within the
`handleDebouncedFilter` call itself, with no timer installed for the key —
with the request carrying no cursor, and both pagination cursors are reset to
absent before the call returns. -/
theorem c5_empty_value_immediate_fetch (s : StocksStore) (filterKey value : String)
    (h : jsTrim value = "") :
    ∃ req : StocksReq,
      (handleDebouncedFilter s filterKey value).issuedLoads = s.issuedLoads ++ [req] ∧
      req.cursor = none ∧
      (handleDebouncedFilter s filterKey value).nextCursor = none ∧
      (handleDebouncedFilter s filterKey value).previousCursor = none ∧
      alookup filterKey (handleDebouncedFilter s filterKey value).debounceTimers = none := by
  cases htm : alookup filterKey s.debounceTimers with
  | none =>
    refine ⟨⟨s.pageSize, none, activeFiltersStocks (aset filterKey value s.filters)⟩,
      ?_, rfl, ?_, ?_, ?_⟩ <;>
      simp [handleDebouncedFilter, htm, h, loadStocksIssue]
  | some t =>
    refine ⟨⟨s.pageSize, none, activeFiltersStocks (aset filterKey value s.filters)⟩,
      ?_, rfl, ?_, ?_, ?_⟩ <;>
      simp [handleDebouncedFilter, htm, h, loadStocksIssue, alookup_aerase_self]

/-- Concrete instance of C5: a whitespace-only update on the initial store
issues exactly one cursor-free fetch at once. -/
theorem c5_empty_value_immediate_fetch_witness :
    ∃ req : StocksReq,
      (handleDebouncedFilter stocksInit "ticker__icontains" "  ").issuedLoads =
        stocksInit.issuedLoads ++ [req] ∧
      req.cursor = none ∧
      (handleDebouncedFilter stocksInit "ticker__icontains" "  ").nextCursor = none ∧
      (handleDebouncedFilter stocksInit "ticker__icontains" "  ").previousCursor = none ∧
      alookup "ticker__icontains"
        (handleDebouncedFilter stocksInit "ticker__icontains" "  ").debounceTimers = none :=
  c5_empty_value_immediate_fetch stocksInit "ticker__icontains" "  " (by decide)

/-- C4: for every non-empty burst of debounced updates to one key with
non-blank values, all within the debounce window, no fetch is issued during
the burst, each call cancels the previously pending timer before installing
the next (`n - 1` cancellations, with the last-installed timer pending), and
once the window elapses exactly one fetch is issued, cursor-free, whose
transport filters carry the trimmed last value supplied; the raw filter
object likewise holds the last value. -/
theorem c4_debounce_single_fetch_last_value (s0 : StocksStore) (k : String)
    (vs : List String) (hne : vs ≠ [])
    (hvals : ∀ v ∈ vs, jsTrim v ≠ "")
    (ht0 : s0.debounceTimers = []) (hl0 : s0.issuedLoads = []) :
    (debounceBurst s0 k vs).issuedLoads = [] ∧
    (debounceBurst s0 k vs).cancelledTimers.length =
      s0.cancelledTimers.length + (vs.length - 1) ∧
    (debounceBurst s0 k vs).debounceTimers = [(k, s0.nextTimerId + vs.length - 1)] ∧
    alookup k (debounceBurst s0 k vs).filters = some (vs.getLast hne) ∧
    ∃ req : StocksReq,
      (elapseDebounce (debounceBurst s0 k vs)).issuedLoads = [req] ∧
      req.cursor = none ∧
      alookup k req.activeFilters = some (jsTrim (vs.getLast hne)) := by
  cases vs with
  | nil => exact absurd rfl hne
  | cons v rest =>
    have hv : jsTrim v ≠ "" := hvals v (List.mem_cons_self _ _)
    have hstep := handleDebounced_first s0 k v ht0 hv
    have hfold : debounceBurst s0 k (v :: rest) =
        debounceBurst (handleDebouncedFilter s0 k v) k rest := rfl
    have hlast : jsTrim ((v :: rest).getLast hne) ≠ "" :=
      hvals _ (List.getLast_mem hne)
    have hmain :
        (debounceBurst s0 k (v :: rest)).issuedLoads = [] ∧
        (debounceBurst s0 k (v :: rest)).cancelledTimers.length =
          s0.cancelledTimers.length + ((v :: rest).length - 1) ∧
        (debounceBurst s0 k (v :: rest)).debounceTimers =
          [(k, s0.nextTimerId + (v :: rest).length - 1)] ∧
        alookup k (debounceBurst s0 k (v :: rest)).filters =
          some ((v :: rest).getLast hne) ∧
        (debounceBurst s0 k (v :: rest)).pageSize = s0.pageSize := by
      cases rest with
      | nil =>
        rw [hfold, hstep]
        refine ⟨by simpa [debounceBurst] using hl0, by simp [debounceBurst],
          by simp [debounceBurst], ?_, rfl⟩
        simpa [debounceBurst] using alookup_aset_self k v s0.filters
      | cons w rest2 =>
        have hrest : ∀ x ∈ w :: rest2, jsTrim x ≠ "" :=
          fun x hx => hvals x (List.mem_cons_of_mem _ hx)
        have hih := debounceBurst_pending k (w :: rest2)
          (handleDebouncedFilter s0 k v) s0.nextTimerId (by rw [hstep]) hrest (by simp)
        obtain ⟨a1, a2, a3, a4, a5, a6⟩ := hih
        rw [hfold]
        refine ⟨?_, ?_, ?_, ?_, ?_⟩
        · rw [a2, hstep]
          simpa using hl0
        · rw [a3, hstep]
          simp only [List.length_cons]
          omega
        · rw [a1, hstep]
          simp only [List.length_cons, List.cons.injEq, Prod.mk.injEq, true_and, and_true,
            eq_self_iff_true]
          omega
        · rw [a4]
          calc (w :: rest2).getLast?
              = (v :: w :: rest2).getLast? := (List.getLast?_cons_cons).symm
            _ = some ((v :: w :: rest2).getLast hne) :=
                List.getLast?_eq_getLast_of_ne_nil hne
        · rw [a6, hstep]
    obtain ⟨b1, b2, b3, b4, b5⟩ := hmain
    refine ⟨b1, b2, b3, b4, ?_⟩
    have helapse : elapseDebounce (debounceBurst s0 k (v :: rest)) =
        fireTimer (debounceBurst s0 k (v :: rest)) k := by
      rw [elapseDebounce, b3]
      rfl
    refine ⟨⟨(debounceBurst s0 k (v :: rest)).pageSize, none,
      activeFiltersStocks (debounceBurst s0 k (v :: rest)).filters⟩, ?_, rfl, ?_⟩
    · rw [helapse]
      unfold fireTimer
      rw [b3]
      simp [alookup, loadStocksIssue, b1]
    · exact alookup_activeFiltersStocks b4 hlast

/-- Concrete instance of C4: the burst `"a"`, `"ab"` on the initial store
cancels one timer and, after the window elapses, issues exactly one fetch
whose filters carry `"ab"`. -/
theorem c4_debounce_single_fetch_last_value_witness :
    (debounceBurst stocksInit "ticker__icontains" ["a", "ab"]).issuedLoads = [] ∧
    (debounceBurst stocksInit "ticker__icontains" ["a", "ab"]).cancelledTimers.length =
      stocksInit.cancelledTimers.length + (["a", "ab"].length - 1) ∧
    (debounceBurst stocksInit "ticker__icontains" ["a", "ab"]).debounceTimers =
      [("ticker__icontains", stocksInit.nextTimerId + ["a", "ab"].length - 1)] ∧
    alookup "ticker__icontains"
      (debounceBurst stocksInit "ticker__icontains" ["a", "ab"]).filters =
      some (["a", "ab"].getLast (by decide)) ∧
    ∃ req : StocksReq,
      (elapseDebounce (debounceBurst stocksInit "ticker__icontains" ["a", "ab"])).issuedLoads =
        [req] ∧
      req.cursor = none ∧
      alookup "ticker__icontains" req.activeFilters =
        some (jsTrim (["a", "ab"].getLast (by decide))) :=
  c4_debounce_single_fetch_last_value stocksInit "ticker__icontains" ["a", "ab"]
    (by decide) (by decide) rfl rfl

/-! ### C8 — blank filters never reach the transport; sent values are trimmed -/

/-- Every entry of the stocks `activeFilters` object comes from a raw filter
whose value trims to that nonempty entry value. -/
lemma mem_activeFiltersStocks {l : List (String × String)} {k w : String}
    (h : (k, w) ∈ activeFiltersStocks l) :
    ∃ rawv, (k, rawv) ∈ l ∧ w = jsTrim rawv ∧ jsTrim rawv ≠ "" := by
  unfold activeFiltersStocks at h
  rcases List.mem_filterMap.mp h with ⟨a, ha, hfa⟩
  by_cases h2 : jsTrim a.2 = ""
  · rw [if_neg (by simpa using h2)] at hfa
    exact absurd hfa (by simp)
  · rw [if_pos h2] at hfa
    obtain ⟨hk, hw⟩ : a.1 = k ∧ jsTrim a.2 = w := by
      injection hfa with hfa2
      exact ⟨congrArg Prod.fst hfa2, congrArg Prod.snd hfa2⟩
    exact ⟨a.2, by rw [← hk]; exact ha, hw.symm, h2⟩

/-- With no duplicate keys, a key determines its value in the filter
object. -/
lemma val_eq_of_keysNodup {l : List (String × String)} {k v w : String}
    (hnd : (l.map Prod.fst).Nodup) (h1 : (k, v) ∈ l) (h2 : (k, w) ∈ l) : v = w := by
  induction l with
  | nil => simp at h1
  | cons kv rest ih =>
    rw [List.map_cons, List.nodup_cons] at hnd
    rcases List.mem_cons.mp h1 with he1 | ht1
    · rcases List.mem_cons.mp h2 with he2 | ht2
      · rw [← he1] at he2
        injection he2 with _ h
        exact h.symm
      · exfalso
        exact hnd.1 (by rw [← he1]; exact List.mem_map.mpr ⟨(k, w), ht2, rfl⟩)
    · rcases List.mem_cons.mp h2 with he2 | ht2
      · exfalso
        exact hnd.1 (by rw [← he2]; exact List.mem_map.mpr ⟨(k, v), ht1, rfl⟩)
      · exact ih hnd.2 ht1 ht2

/-- Lifting the string-valued `activeFilters` object into transport values
commutes with lookup. -/
lemma alookup_map_str (k : String) (l : List (String × String)) :
    alookup k (l.map fun kv => (kv.1, TransportValue.str kv.2)) =
      (alookup k l).map TransportValue.str := by
  induction l with
  | nil => rfl
  | cons kv rest ih => by_cases hk : kv.1 = k <;> simp [alookup, hk, ih]

/-- Characterization of a string-filter parameter produced by
`buildQueryParams`. -/
lemma strParamOf_eq_some {filters : List (String × TransportValue)}
    {k : String} {p : String × String} (h : strParamOf filters k = some p) :
    ∃ v, alookup k filters = some v ∧ v ≠ TransportValue.str "" ∧
      p = (k, v.render) := by
  unfold strParamOf at h
  cases halk : alookup k filters with
  | none => rw [halk] at h; exact absurd h (by simp)
  | some v =>
    rw [halk] at h
    have h2 : (if v = TransportValue.str "" then none else some (k, v.render)) = some p := h
    by_cases hv : v = TransportValue.str ""
    · rw [if_pos hv] at h2
      exact absurd h2 (by simp)
    · rw [if_neg hv] at h2
      obtain rfl : (k, v.render) = p := by injection h2
      exact ⟨v, rfl, hv, rfl⟩

/-- C8: in the stocks pipeline (store-level `activeFilters` construction
composed with the query builder), a filter key whose raw value is empty or
whitespace-only never appears among the transport parameters, and every
transport parameter other than `page_size`/`cursor` is the trimmed,
nonempty value of the corresponding raw filter — in particular no filter is
ever sent with value `""` and sent string values are trimmed. -/
theorem c8_blank_filters_absent_trimmed (raw : List (String × String)) (ps : Nat)
    (cur : Option String) (hnd : (raw.map Prod.fst).Nodup) :
    (∀ k v, (k, v) ∈ raw → jsTrim v = "" → k ≠ "page_size" → k ≠ "cursor" →
      k ∉ (stocksTransportParams ps cur raw).map Prod.fst) ∧
    (∀ k val, (k, val) ∈ stocksTransportParams ps cur raw →
      k ≠ "page_size" → k ≠ "cursor" →
      ∃ rawv, (k, rawv) ∈ raw ∧ val = jsTrim rawv ∧ jsTrim rawv ≠ "") := by
  have main : ∀ k val, (k, val) ∈ stocksTransportParams ps cur raw →
      k ≠ "page_size" → k ≠ "cursor" →
      ∃ rawv, (k, rawv) ∈ raw ∧ val = jsTrim rawv ∧ jsTrim rawv ≠ "" := by
    intro k val hmem hkp hkc
    simp only [stocksTransportParams, buildQueryParams] at hmem
    rcases List.mem_append.mp hmem with hmem1 | hmem2
    rcases List.mem_append.mp hmem1 with hbase | hstr
    · exfalso
      rcases List.mem_append.mp hbase with hps | hcur
      · by_cases h0 : ps = 0 <;> simp [h0] at hps
        exact hkp hps.1
      · cases cur with
        | none => simp at hcur
        | some c =>
          by_cases hc : c = "" <;> simp [hc] at hcur
          exact hkc hcur.1
    · rcases List.mem_filterMap.mp hstr with ⟨k1, _, hfk1⟩
      obtain ⟨tv, halk, htvne, hp⟩ := strParamOf_eq_some hfk1
      obtain ⟨hk1, hval⟩ : k1 = k ∧ tv.render = val := by
        constructor <;> injection hp with h1 h2
        · exact h1.symm
        · exact h2.symm
      subst hk1
      rw [alookup_map_str] at halk
      rcases Option.map_eq_some'.mp halk with ⟨w, hw, hws⟩
      obtain ⟨rawv, hraw, hwv, hne⟩ := mem_activeFiltersStocks (alookup_mem hw)
      refine ⟨rawv, hraw, ?_, hne⟩
      rw [← hval, ← hws, TransportValue.render, hwv]
    · exact absurd hmem2 (by simp)
  refine ⟨?_, main⟩
  intro k v hv htrim hkp hkc hkmem
  rcases List.mem_map.mp hkmem with ⟨⟨k2, val⟩, hpm, hfst⟩
  obtain rfl : k2 = k := hfst
  obtain ⟨rawv, hraw, _, hne⟩ := main k2 val hpm hkp hkc
  exact hne (val_eq_of_keysNodup hnd hraw hv ▸ htrim)

/-- Concrete instance of C8: with a whitespace-only `ticker__icontains` and
`" us "` for `country`, the transport parameters omit the blank key and send
the trimmed `"us"`. -/
theorem c8_blank_filters_absent_trimmed_witness :
    "ticker__icontains" ∉ (stocksTransportParams 50 none
        [("ticker__icontains", "  "), ("country", " us ")]).map Prod.fst ∧
    ∃ rawv, ("country", rawv) ∈ [("ticker__icontains", "  "), ("country", " us ")] ∧
      "us" = jsTrim rawv ∧ jsTrim rawv ≠ "" :=
  ⟨(c8_blank_filters_absent_trimmed [("ticker__icontains", "  "), ("country", " us ")]
      50 none (by decide)).1 "ticker__icontains" "  " (by decide) (by decide)
      (by decide) (by decide),
   (c8_blank_filters_absent_trimmed [("ticker__icontains", "  "), ("country", " us ")]
      50 none (by decide)).2 "country" "us" (by decide) (by decide) (by decide)⟩

/-! ### C6 — date-range normalization and timezone dependence -/

/-- C6 counterexample: the claim asserts that normalizing the
date-range-bound value `"2025-01-01"` yields one fixed UTC boundary string
for every caller timezone offset; but the normalization used by the runs
store variant and `loadBulkQueueRuns` (`dateUtils.dateToUTCISO`, which
converts *local* midnight to UTC) produces different boundary strings at
offsets 0 and 60. -/
theorem c6_tz_dependence_counterexample :
    dateToUTCISO "2025-01-01" 0 ≠ dateToUTCISO "2025-01-01" 60 := by decide

/-- C6 amended: the ingestion-runs `loadRuns` normalization is a fixed pure
function of the input string — `"2025-01-01"` always becomes
`"2025-01-01T00:00:00Z"` — while the `dateToUTCISO`-based normalization of
the duplicated runs store and `loadBulkQueueRuns` converts local midnight and
therefore varies with the caller's timezone offset. -/
theorem c6_date_normalization_amended :
    normalizeDateRuns "2025-01-01" = some "2025-01-01T00:00:00Z" ∧
    dateToUTCISO "2025-01-01" 0 = some "2025-01-01T00:00:00Z" ∧
    dateToUTCISO "2025-01-01" 60 = some "2025-01-01T01:00:00Z" ∧
    dateToUTCISO "2025-01-01" (-120) = some "2024-12-31T22:00:00Z" :=
  ⟨by decide, by decide, by decide, by decide⟩

end ListSync
